import Mathlib

/-!
Verification of the timing-reconciliation and XML-serialization core of the
comic-to-premiere repository.

The embedding covers:
* `generate_fallback_timings` (src/modules/gemini_client.py, lines 237-264);
* the pure validation tail of `analyze_audio_timing`
  (src/modules/gemini_client.py, lines 176-213), here `validate_timing_data`;
* `create_premiere_xml` and its inner `seconds_to_frames`
  (src/modules/xml_generator.py, lines 5-121), with the ElementTree document
  modelled as an explicit tree and its serialization as a token stream.

Real numbers of the Python source are modelled as rationals; Python `round`
(banker's rounding, ties to even) is `pyRound`.
-/

namespace ComicToPremiere

/-- Python `round` on a rational value: nearest integer, ties go to the even
integer.  `round(2.5) = 2`, `round(1.5) = 2`, `round(-2.5) = -2`. -/
def pyRound (q : ℚ) : ℤ :=
  if q - q.floor < 1/2 then q.floor
  else if 1/2 < q - q.floor then q.floor + 1
  else if q.floor % 2 = 0 then q.floor else q.floor + 1

/-- `seconds_to_frames` from `create_premiere_xml` (xml_generator.py line 25):
`int(round(seconds * FPS))` with `FPS = 30`. -/
def seconds_to_frames (seconds : ℚ) : ℤ :=
  pyRound (seconds * 30)

/-- One timing entry as produced by `generate_fallback_timings` and by the
validation tail of `analyze_audio_timing`: the dict
`{"panel": ..., "start_time": ..., "duration": ...}`. -/
structure Timing where
  panel : ℤ
  start_time : ℚ
  duration : ℚ
  deriving DecidableEq, Repr

/-- `generate_fallback_timings` (gemini_client.py lines 237-264): raises
`ValueError` (modelled as `.error`) when `panel_count < 1` or
`total_duration <= 0`; otherwise emits `panel_count` entries, entry `i`
(0-based) carrying `panel = i+1`, `start_time = i * (D/N)`,
`duration = D/N`. -/
def generate_fallback_timings (panel_count : ℤ) (total_duration : ℚ) :
    Except String (List Timing) :=
  if panel_count < 1 then .error "Panel count must be at least 1"
  else if total_duration ≤ 0 then .error "Total duration must be positive"
  else
    let duration_per_panel : ℚ := total_duration / (panel_count : ℚ)
    .ok ((List.range panel_count.toNat).map fun i : ℕ =>
      { panel := (i : ℤ) + 1
        start_time := (i : ℚ) * duration_per_panel
        duration := duration_per_panel })

/-- A JSON-ish field value as seen by the validation code after
`json.loads`: either a numeric value (on which Python `int(...)` truncates
toward zero and `float(...)` is the identity) or a value on which both
coercions raise (a non-numeric string, `null`, a list, ...). -/
inductive JVal where
  | num (q : ℚ)
  | nonNum
  deriving DecidableEq, Repr

/-- Python `int(...)` applied to a field value: truncation toward zero for
numbers, failure otherwise. -/
def jToInt : JVal → Option ℤ
  | .num q => some (if 0 ≤ q then ⌊q⌋ else ⌈q⌉)
  | .nonNum => none

/-- Python `float(...)` applied to a field value. -/
def jToFloat : JVal → Option ℚ
  | .num q => some q
  | .nonNum => none

/-- One raw element of the decoded JSON array: either a dict, carrying the
three fields the validator reads (each possibly absent), or a non-dict
value. -/
inductive RawEntry where
  | dict (panel start_time duration : Option JVal)
  | nonDict
  deriving DecidableEq, Repr

/-- Per-entry validation from `analyze_audio_timing` (gemini_client.py lines
190-211): the entry must be a dict, must expose `panel`, `start_time` and
`duration`, each field must coerce (`int` / `float` / `float`), and then
`start_time >= 0` and `duration > 0` must hold.  On success the coerced
entry is produced. -/
def validateEntry : RawEntry → Option Timing
  | .nonDict => none
  | .dict panel start_time duration =>
    match panel, start_time, duration with
    | some pv, some sv, some dv =>
      match jToInt pv, jToFloat sv, jToFloat dv with
      | some p, some s, some d =>
        if s < 0 ∨ d ≤ 0 then none
        else some { panel := p, start_time := s, duration := d }
      | _, _, _ => none
    | _, _, _ => none

/-- The entry loop of `analyze_audio_timing` (lines 189-213): validate the
entries in order; the first failure invalidates the whole batch. -/
def validateAll : List RawEntry → Option (List Timing)
  | [] => some []
  | e :: rest =>
    match validateEntry e with
    | none => none
    | some t =>
      match validateAll rest with
      | none => none
      | some ts => some (t :: ts)

/-- The validation tail of `analyze_audio_timing` (gemini_client.py lines
176-213), taking the decoded JSON array.  Count policy first (line 181):
more entries than `panel_count` are truncated to the first `panel_count`,
fewer make the batch invalid; then every remaining entry is validated. -/
def validate_timing_data (timing_data : List RawEntry) (panel_count : ℕ) :
    Option (List Timing) :=
  if timing_data.length = panel_count then
    validateAll timing_data
  else if panel_count < timing_data.length then
    validateAll (timing_data.take panel_count)
  else
    none

/-- An ElementTree element as built by `create_premiere_xml`: tag, attribute
list, optional text content, child elements. -/
inductive XNode where
  | elem (tag : String) (attrs : List (String × String)) (text : Option String)
      (children : List XNode)
  deriving Repr

def XNode.tag : XNode → String
  | .elem t _ _ _ => t

def XNode.text : XNode → Option String
  | .elem _ _ tx _ => tx

def XNode.children : XNode → List XNode
  | .elem _ _ _ ch => ch

/-- First child with the given tag (`find`-style navigation used only in the
statements, not in the embedded code). -/
def XNode.child (x : XNode) (t : String) : Option XNode :=
  x.children.find? fun c => c.tag == t

/-- The serializer's view of one timing dict: it reads the two fields with
`timing.get('start_time', 0)` and `timing.get('duration', 3.0)`
(xml_generator.py lines 55-56), so each may be absent. -/
structure ClipTiming where
  start_time : Option ℚ
  duration : Option ℚ
  deriving DecidableEq, Repr

def ClipTiming.getStart (t : ClipTiming) : ℚ := t.start_time.getD 0

def ClipTiming.getDuration (t : ClipTiming) : ℚ := t.duration.getD 3

/-- Normalizer / fallback output dicts always carry both fields. -/
def Timing.toClip (t : Timing) : ClipTiming :=
  { start_time := some t.start_time, duration := some t.duration }

/-- `<rate><timebase>30</timebase><ntsc>FALSE</ntsc></rate>` as emitted for
the sequence and for every clipitem. -/
def rateElem : XNode :=
  .elem "rate" [] none
    [.elem "timebase" [] (some "30") [], .elem "ntsc" [] (some "FALSE") []]

/-- One video-track `clipitem` (xml_generator.py lines 54-84), for zip index
`i` (0-based), image filename `img` and its timing dict. -/
def videoClipElem (i : ℕ) (img : String) (timing : ClipTiming) : XNode :=
  let start_frames := seconds_to_frames timing.getStart
  let duration_frames := seconds_to_frames timing.getDuration
  let end_frames := start_frames + duration_frames
  .elem "clipitem" [("id", "clipitem-" ++ toString (i + 1))] none
    [.elem "name" [] (some img) [],
     .elem "duration" [] (some (toString (duration_frames + 1000))) [],
     rateElem,
     .elem "start" [] (some (toString start_frames)) [],
     .elem "end" [] (some (toString end_frames)) [],
     .elem "in" [] (some "0") [],
     .elem "out" [] (some (toString duration_frames)) [],
     .elem "file" [("id", "file-" ++ toString (i + 1))] none
       [.elem "name" [] (some img) [],
        .elem "pathurl" [] (some img) [],
        .elem "rate" [] none [.elem "timebase" [] (some "30") []],
        .elem "timecode" [] none
          [.elem "rate" [] none [.elem "timebase" [] (some "30") []],
           .elem "string" [] (some "00:00:00:00") [],
           .elem "frame" [] (some "0") []]]]

/-- One audio-track `clipitem` (xml_generator.py lines 92-116), for channel
number `ch` (1 or 2). -/
def audioClipElem (af : String) (ad : ℚ) (ch : ℕ) : XNode :=
  let duration_frames := seconds_to_frames ad
  .elem "clipitem" [("id", "audio-clip-" ++ toString ch)] none
    [.elem "name" [] (some af) [],
     .elem "duration" [] (some (toString duration_frames)) [],
     rateElem,
     .elem "start" [] (some "0") [],
     .elem "end" [] (some (toString duration_frames)) [],
     .elem "in" [] (some "0") [],
     .elem "out" [] (some (toString duration_frames)) [],
     .elem "file" [("id", "audio-file-1")] none
       [.elem "name" [] (some af) [],
        .elem "pathurl" [] (some af) []],
     .elem "sourcetrack" [] none
       [.elem "mediatype" [] (some "audio") [],
        .elem "trackindex" [] (some (toString ch)) []]]

/-- One audio `track` holding its single clipitem. -/
def audioTrackElem (af : String) (ad : ℚ) (ch : ℕ) : XNode :=
  .elem "track" [] none [audioClipElem af ad ch]

/-- `create_premiere_xml` (xml_generator.py lines 5-121) as the element tree
it builds: the text serialization step (`ET.tostring` + minidom pretty
printing) is modelled separately by `renderToks`.  The video track holds one
clipitem per element of `zip(image_filenames, timings)` — `zip` silently
truncates to the shorter list, the code performs no length check. -/
def create_premiere_xml (image_filenames : List String)
    (timings : List ClipTiming) (audio_filename : String)
    (audio_duration : ℚ) : XNode :=
  .elem "xmeml" [("version", "4")] none
    [.elem "sequence" [] none
      [.elem "name" [] (some "Comic Sequence") [],
       .elem "duration" [] (some (toString (seconds_to_frames audio_duration))) [],
       rateElem,
       .elem "media" [] none
         [.elem "video" [] none
           [.elem "format" [] none
             [.elem "samplecharacteristics" [] none
               [.elem "width" [] (some "1920") [],
                .elem "height" [] (some "1080") []]],
            .elem "track" [] none
              (((image_filenames.zip timings).enum).map fun p =>
                videoClipElem p.1 p.2.1 p.2.2)],
          .elem "audio" [] none
            [audioTrackElem audio_filename audio_duration 1,
             audioTrackElem audio_filename audio_duration 2]]]]

/-- The escaping ElementTree applies to text content when serializing:
`&` → `&amp;`, `<` → `&lt;`, `>` → `&gt;`. -/
def escapeChar (c : Char) : List Char :=
  if c = '&' then ['&', 'a', 'm', 'p', ';']
  else if c = '<' then ['&', 'l', 't', ';']
  else if c = '>' then ['&', 'g', 't', ';']
  else [c]

def escapeChars : List Char → List Char
  | [] => []
  | c :: rest => escapeChar c ++ escapeChars rest

def escapeXml (s : String) : String := ⟨escapeChars s.data⟩

/-- Entity decoding as an XML consumer performs it on text content. -/
def unescapeChars : List Char → List Char
  | [] => []
  | '&' :: 'a' :: 'm' :: 'p' :: ';' :: rest => '&' :: unescapeChars rest
  | '&' :: 'l' :: 't' :: ';' :: rest => '<' :: unescapeChars rest
  | '&' :: 'g' :: 't' :: ';' :: rest => '>' :: unescapeChars rest
  | c :: rest => c :: unescapeChars rest

def unescapeXml (s : String) : String := ⟨unescapeChars s.data⟩

/-- One token of the serialized document. -/
inductive Tok where
  | openT (tag : String) (attrs : List (String × String))
  | closeT (tag : String)
  | textT (s : String)
  deriving Repr

mutual
/-- Serialization of an element to its token stream: open tag, escaped text
content, children, close tag — the structure `ET.tostring` emits. -/
def renderToks : XNode → List Tok
  | .elem tag attrs txt children =>
    Tok.openT tag attrs ::
      ((match txt with
        | some s => [Tok.textT (escapeXml s)]
        | none => []) ++
       (renderChildren children ++ [Tok.closeT tag]))

def renderChildren : List XNode → List Tok
  | [] => []
  | c :: cs => renderToks c ++ renderChildren cs
end

/-- Tag-balance checker over a token stream, with the stack of open tags. -/
def chk : List Tok → List String → Bool
  | [], [] => true
  | [], _ :: _ => false
  | Tok.openT t _ :: rest, st => chk rest (t :: st)
  | Tok.closeT t :: rest, s :: st => t == s && chk rest st
  | Tok.closeT _ :: _, [] => false
  | Tok.textT _ :: rest, st => chk rest st

/-- A token stream is well-formed when every close tag matches the innermost
open tag and the stream ends with all tags closed. -/
def wellFormed (toks : List Tok) : Bool := chk toks []

/-- `end_frames = start_frames + duration_frames` as computed for a video
clipitem (xml_generator.py line 57). -/
def clipEndFrames (t : ClipTiming) : ℤ :=
  seconds_to_frames t.getStart + seconds_to_frames t.getDuration

/-- Navigation to the video `track` element of a produced document. -/
def videoTrackOf (doc : XNode) : Option XNode :=
  (((doc.child "sequence").bind (·.child "media")).bind
    (·.child "video")).bind (·.child "track")

/-- Navigation to the declared sequence duration text of a document. -/
def seqDurationText (doc : XNode) : Option String :=
  ((doc.child "sequence").bind (·.child "duration")).bind XNode.text

/-- Modelled from the spec: the spec's mandated tie-breaking rule
"round-half-up for reproducibility" (`frames = round(seconds * 30)` with a
half always rounded to the next larger integer); stated only to be compared
with the code's `pyRound`. -/
def roundHalfUpSpec (q : ℚ) : ℤ := (q + 1/2).floor

/-! ### Helper lemmas -/

theorem rat_floor_eq_floor (q : ℚ) : q.floor = ⌊q⌋ := by
  rw [Rat.floor_def', Rat.floor_def]

theorem pyRound_le (q : ℚ) : (pyRound q : ℚ) ≤ q + 1/2 := by
  unfold pyRound
  rw [rat_floor_eq_floor]
  have h0 : (⌊q⌋ : ℚ) ≤ q := Int.floor_le q
  have h1 : q < ⌊q⌋ + 1 := Int.lt_floor_add_one q
  split
  · linarith
  · split
    · push_cast; linarith
    · split <;> push_cast <;> linarith

theorem le_pyRound (q : ℚ) : q - 1/2 ≤ (pyRound q : ℚ) := by
  unfold pyRound
  rw [rat_floor_eq_floor]
  have h0 : (⌊q⌋ : ℚ) ≤ q := Int.floor_le q
  have h1 : q < ⌊q⌋ + 1 := Int.lt_floor_add_one q
  split
  · linarith
  · split
    · push_cast; linarith
    · split <;> push_cast <;> linarith

/-- Rounding the two parts of a sum overshoots the rounded sum by at most
one frame. -/
theorem pyRound_add_le (u v : ℚ) :
    pyRound u + pyRound v ≤ pyRound (u + v) + 1 := by
  have h1 := pyRound_le u
  have h2 := pyRound_le v
  have h3 := le_pyRound (u + v)
  have h4 : ((pyRound u + pyRound v : ℤ) : ℚ) < ((pyRound (u + v) + 1 : ℤ) : ℚ) + 1 := by
    push_cast
    linarith
  exact Int.lt_add_one_iff.mp (by exact_mod_cast h4)

theorem unescapeChars_cons_of_ne (c : Char) (xs : List Char) (h1 : c ≠ '&') :
    unescapeChars (c :: xs) = c :: unescapeChars xs := by
  rw [unescapeChars.eq_def]
  split <;> simp_all

theorem unescape_escapeChars (l : List Char) :
    unescapeChars (escapeChars l) = l := by
  induction l with
  | nil => rfl
  | cons c rest ih =>
    rw [escapeChars]
    by_cases h1 : c = '&'
    · subst h1
      rw [show escapeChar '&' = ['&', 'a', 'm', 'p', ';'] from rfl]
      simpa [unescapeChars] using ih
    · by_cases h2 : c = '<'
      · subst h2
        rw [show escapeChar '<' = ['&', 'l', 't', ';'] from rfl]
        simpa [unescapeChars] using ih
      · by_cases h3 : c = '>'
        · subst h3
          rw [show escapeChar '>' = ['&', 'g', 't', ';'] from rfl]
          simpa [unescapeChars] using ih
        · rw [show escapeChar c = [c] from by simp [escapeChar, h1, h2, h3]]
          rw [List.singleton_append, unescapeChars_cons_of_ne c _ h1, ih]

/-- Entity decoding inverts the serializer's escaping on every string. -/
theorem unescape_escape (s : String) : unescapeXml (escapeXml s) = s := by
  cases s with
  | mk data => simp [unescapeXml, escapeXml, unescape_escapeChars]

theorem chk_videoClip (i : ℕ) (img : String) (t : ClipTiming)
    (rest : List Tok) (st : List String) :
    chk (renderToks (videoClipElem i img t) ++ rest) st = chk rest st := by
  simp [videoClipElem, rateElem, renderToks, renderChildren, chk]

theorem chk_clipList (ps : List (ℕ × String × ClipTiming)) :
    ∀ (rest : List Tok) (st : List String),
    chk (renderChildren (ps.map fun p => videoClipElem p.1 p.2.1 p.2.2) ++ rest) st
      = chk rest st := by
  induction ps with
  | nil => intro rest st; simp [renderChildren]
  | cons p ps ih => intro rest st; simp [renderChildren, List.append_assoc, chk_videoClip, ih]

theorem chk_audioTrack (af : String) (ad : ℚ) (ch : ℕ)
    (rest : List Tok) (st : List String) :
    chk (renderToks (audioTrackElem af ad ch) ++ rest) st = chk rest st := by
  simp [audioTrackElem, audioClipElem, rateElem, renderToks, renderChildren, chk]

/-- The serialized document is always tag-balanced, whatever the inputs. -/
theorem wellFormed_create (imgs : List String) (ts : List ClipTiming)
    (af : String) (ad : ℚ) :
    wellFormed (renderToks (create_premiere_xml imgs ts af ad)) = true := by
  have hclips := chk_clipList ((imgs.zip ts).enum)
  unfold wellFormed create_premiere_xml
  simp [renderToks, renderChildren, chk, rateElem, List.append_assoc,
    hclips, chk_audioTrack]

theorem validateAll_none_of_mem (l : List RawEntry) (e : RawEntry)
    (he : e ∈ l) (hbad : validateEntry e = none) : validateAll l = none := by
  induction l with
  | nil => cases he
  | cons a rest ih =>
    rcases List.mem_cons.mp he with h | h
    · subst h
      simp [validateAll, hbad]
    · rw [validateAll]
      cases hva : validateEntry a with
      | none => rfl
      | some t => rw [ih h]

theorem validateAll_some_of_valid (l : List RawEntry)
    (h : ∀ e ∈ l, (validateEntry e).isSome) :
    ∃ ts, validateAll l = some ts ∧ ts.length = l.length ∧
      ∀ i (hi : i < l.length) (hi' : i < ts.length),
        some (ts.get ⟨i, hi'⟩) = validateEntry (l.get ⟨i, hi⟩) := by
  induction l with
  | nil => exact ⟨[], rfl, rfl, fun i hi _ => absurd hi (Nat.not_lt_zero i)⟩
  | cons a rest ih =>
    obtain ⟨t, ht⟩ := Option.isSome_iff_exists.mp (h a (by simp))
    obtain ⟨ts, hts, hlen, hget⟩ := ih fun e he => h e (by simp [he])
    refine ⟨t :: ts, by simp [validateAll, ht, hts], by simp [hlen], ?_⟩
    intro i hi hi'
    cases i with
    | zero => simpa using ht.symm
    | succ j =>
      have hj : j < rest.length := by simpa using Nat.succ_lt_succ_iff.mp hi
      have hj' : j < ts.length := by omega
      simpa using hget j hj hj'

/-! ### Claim theorems -/

/-- C1: for every panel count N ≥ 1 and total duration D > 0 the fallback
generator returns exactly N entries, entry i having start `i * D/N` and
duration `D/N`; the entries are contiguous, start at 0 and their durations
sum to D; for N = 3, D = 9 it returns [(0,3),(3,3),(6,3)]. -/
theorem C1_fallback_even_split (N : ℤ) (D : ℚ) (hN : 1 ≤ N) (hD : 0 < D) :
    ∃ l, generate_fallback_timings N D = .ok l ∧
      l.length = N.toNat ∧
      (∀ i (hi : i < l.length),
        (l.get ⟨i, hi⟩).start_time = (i : ℚ) * (D / (N : ℚ)) ∧
        (l.get ⟨i, hi⟩).duration = D / (N : ℚ)) ∧
      (∀ i (hi : i + 1 < l.length),
        (l.get ⟨i + 1, hi⟩).start_time
          = (l.get ⟨i, Nat.lt_of_succ_lt hi⟩).start_time
            + (l.get ⟨i, Nat.lt_of_succ_lt hi⟩).duration) ∧
      (∀ h0 : 0 < l.length, (l.get ⟨0, h0⟩).start_time = 0) ∧
      (l.map Timing.duration).sum = D ∧
      generate_fallback_timings 3 9
        = .ok [⟨1, 0, 3⟩, ⟨2, 3, 3⟩, ⟨3, 6, 3⟩] := by
  have hN' : ¬(N < 1) := not_lt.mpr hN
  have hD' : ¬(D ≤ 0) := not_le.mpr hD
  have hNq : (N : ℚ) ≠ 0 := Int.cast_ne_zero.mpr (by omega)
  refine ⟨(List.range N.toNat).map fun i : ℕ =>
      { panel := (i : ℤ) + 1, start_time := (i : ℚ) * (D / (N : ℚ)),
        duration := D / (N : ℚ) }, ?_, by simp, ?_, ?_, ?_, ?_, ?_⟩
  · rw [generate_fallback_timings, if_neg hN', if_neg hD']
  · intro i hi
    simp at hi
    simp [List.get_eq_getElem, List.getElem_map, List.getElem_range, hi]
  · intro i hi
    simp only [List.get_eq_getElem, List.getElem_map, List.getElem_range]
    push_cast
    ring
  · intro h0
    simp at h0
    simp [List.get_eq_getElem, List.getElem_map, List.getElem_range, h0]
  · rw [List.map_map]
    have hconst : (Timing.duration ∘ fun i : ℕ =>
        ({ panel := (i : ℤ) + 1, start_time := (i : ℚ) * (D / (N : ℚ)),
           duration := D / (N : ℚ) } : Timing)) = fun _ => D / (N : ℚ) := rfl
    rw [hconst, List.map_const', List.sum_replicate, List.length_range,
      nsmul_eq_mul]
    have hcast : ((N.toNat : ℕ) : ℚ) = (N : ℚ) := by
      rw [show ((N.toNat : ℕ) : ℚ) = ((N.toNat : ℤ) : ℚ) by push_cast; ring,
        Int.toNat_of_nonneg (by omega)]
    rw [hcast]
    field_simp
  · rw [generate_fallback_timings, if_neg (by norm_num), if_neg (by norm_num)]
    rw [show (3 : ℤ).toNat = 3 from rfl]
    norm_num [List.range_succ, Timing.mk.injEq]

/-- Witness for C1 at N = 3, D = 9. -/
theorem C1_witness :
    ∃ l, generate_fallback_timings 3 9 = .ok l ∧ l.length = 3 := by
  obtain ⟨l, h1, h2, -⟩ := C1_fallback_even_split 3 9 (by decide) (by decide)
  exact ⟨l, h1, by simpa using h2⟩

/-- C8: the fallback generator fails (raises `ValueError`, modelled as
`.error`) exactly when `panel_count < 1` or `total_duration ≤ 0`, and
succeeds on every other input. -/
theorem C8_fallback_error_iff (N : ℤ) (D : ℚ) :
    ((∃ msg, generate_fallback_timings N D = .error msg) ↔ (N < 1 ∨ D ≤ 0)) ∧
    (1 ≤ N → 0 < D → ∃ l, generate_fallback_timings N D = .ok l) := by
  constructor
  · constructor
    · intro ⟨msg, hmsg⟩
      by_contra hcon
      push_neg at hcon
      rw [generate_fallback_timings, if_neg (not_lt.mpr hcon.1),
        if_neg (not_le.mpr hcon.2)] at hmsg
      cases hmsg
    · intro h
      rw [generate_fallback_timings]
      rcases Classical.em (N < 1) with h1 | h1
      · exact ⟨"Panel count must be at least 1", by rw [if_pos h1]⟩
      · have h2 : D ≤ 0 := h.resolve_left h1
        exact ⟨"Total duration must be positive", by rw [if_neg h1, if_pos h2]⟩
  · intro h1 h2
    exact ⟨_, by rw [generate_fallback_timings, if_neg (not_lt.mpr h1),
      if_neg (not_le.mpr h2)]⟩

/-- Witness for C8 at N = 0, D = 1 (error case of the iff). -/
theorem C8_witness : (0 : ℤ) < 1 ∨ (1 : ℚ) ≤ 0 :=
  (C8_fallback_error_iff 0 1).1.mp ⟨"Panel count must be at least 1", rfl⟩

/-- C2 counterexample: a raw list whose second entry has duration −1, with
expected panel count 1.  The claim says the normalizer must return the
invalid signal, but the code truncates to the first entry before validating
and returns a sequence. -/
theorem C2_counterexample :
    validate_timing_data
      [.dict (some (.num 1)) (some (.num 0)) (some (.num 1)),
       .dict (some (.num 2)) (some (.num 1)) (some (.num (-1)))] 1
      = some [{ panel := 1, start_time := 0, duration := 1 }] ∧
    validate_timing_data
      [.dict (some (.num 1)) (some (.num 0)) (some (.num 1)),
       .dict (some (.num 2)) (some (.num 1)) (some (.num (-1)))] 1
      ≠ none := by
  constructor <;> decide

/-- C2 amended: a raw list with fewer than N entries, or with an invalid
entry (non-dict, missing field, non-coercible field, negative start or
non-positive duration) among its FIRST N entries, makes the normalizer
return the invalid signal (None); invalid entries beyond the first N are
discarded by truncation before validation. -/
theorem C2_normalizer_invalid (raw : List RawEntry) (N : ℕ) :
    (raw.length < N → validate_timing_data raw N = none) ∧
    (N ≤ raw.length → (∃ e ∈ raw.take N, validateEntry e = none) →
      validate_timing_data raw N = none) := by
  constructor
  · intro h
    rw [validate_timing_data, if_neg (by omega), if_neg (by omega)]
  · rintro h ⟨e, he, hbad⟩
    rw [validate_timing_data]
    by_cases heq : raw.length = N
    · rw [if_pos heq]
      subst heq
      rw [List.take_length] at he
      exact validateAll_none_of_mem _ e he hbad
    · rw [if_neg heq, if_pos (by omega)]
      exact validateAll_none_of_mem _ e he hbad

/-- Witness for C2 amended: a single invalid entry (duration −1) with N = 1
is rejected. -/
theorem C2_witness :
    validate_timing_data
      [.dict (some (.num 2)) (some (.num 1)) (some (.num (-1)))] 1 = none :=
  (C2_normalizer_invalid
      [.dict (some (.num 2)) (some (.num 1)) (some (.num (-1)))] 1).2
    (by decide)
    ⟨.dict (some (.num 2)) (some (.num 1)) (some (.num (-1))),
      by decide, by decide⟩

/-- C3 counterexample: the code does not reassign panel indices 1..N; an
entry stating panel 5 is returned with panel 5, not 1. -/
theorem C3_counterexample :
    validate_timing_data
      [.dict (some (.num 5)) (some (.num 0)) (some (.num 1))] 1
      = some [{ panel := 5, start_time := 0, duration := 1 }] ∧
    ({ panel := 5, start_time := 0, duration := 1 } : Timing).panel ≠ 1 := by
  constructor <;> decide

/-- C3 amended: for every raw list of length ≥ N whose first N entries pass
validation, the normalizer returns exactly the first N entries in original
order with fields coerced (the panel field is the coerced input value, NOT
reassigned 1..N), and the serializer derives each clip's end frame as
start frames + duration frames, never reading an end value from its
input. -/
theorem C3_normalizer_truncate (raw : List RawEntry) (N : ℕ)
    (hlen : N ≤ raw.length)
    (hv : ∀ e ∈ raw.take N, (validateEntry e).isSome) :
    ∃ l, validate_timing_data raw N = some l ∧ l.length = N ∧
      (∀ i (hi : i < N) (hil : i < l.length) (hir : i < raw.length),
        some (l.get ⟨i, hil⟩) = validateEntry (raw.get ⟨i, hir⟩)) ∧
      (∀ (i : ℕ) (img : String) (t : ClipTiming),
        ((videoClipElem i img t).child "end").bind XNode.text
          = some (toString (clipEndFrames t))) := by
  obtain ⟨ts, hts, hlen', hget⟩ := validateAll_some_of_valid (raw.take N) hv
  have htake : (raw.take N).length = N := by
    rw [List.length_take]
    omega
  refine ⟨ts, ?_, by omega, ?_, ?_⟩
  · rw [validate_timing_data]
    by_cases heq : raw.length = N
    · rw [if_pos heq]
      subst heq
      rwa [List.take_length] at hts
    · rw [if_neg heq, if_pos (by omega)]
      exact hts
  · intro i _hi hil hir
    have h1 := hget i (by omega) (by omega)
    rw [h1]
    congr 1
    simp [List.get_eq_getElem, List.getElem_take]
  · intro i img t
    rfl

/-- Witness for C3 amended: one valid entry stating panel 5, N = 1. -/
theorem C3_witness :
    ∃ l, validate_timing_data
      [.dict (some (.num 5)) (some (.num 0)) (some (.num 1))] 1
      = some l ∧ l.length = 1 := by
  obtain ⟨l, h1, h2, -, -⟩ := C3_normalizer_truncate
    [.dict (some (.num 5)) (some (.num 0)) (some (.num 1))] 1
    (by decide) (by decide)
  exact ⟨l, h1, h2⟩

/-- C4 counterexample: with 3 images and 2 timings the claim says the
serializer raises `SerializationFailure`; the code has no length check —
`zip` silently truncates and a document with 2 video clips is produced. -/
theorem C4_counterexample :
    (videoTrackOf (create_premiere_xml ["a.png", "b.png", "c.png"]
        [{ start_time := some 0, duration := some 1 },
         { start_time := some 1, duration := some 1 }] "audio.mp3" 2)).map
      (fun tr => tr.children.length) = some 2 := by
  decide

/-- C4 amended: the serializer never raises on an empty or mismatched image
list; it always produces a document whose video track holds
`min imgs.length ts.length` clipitems (`zip` truncation), so an empty image
list yields a document with zero video clips. -/
theorem C4_no_length_check (imgs : List String) (ts : List ClipTiming)
    (af : String) (ad : ℚ) :
    (videoTrackOf (create_premiere_xml imgs ts af ad)).map
      (fun tr => tr.children.length) = some (min imgs.length ts.length) := by
  simp [videoTrackOf, create_premiere_xml, XNode.child, XNode.children,
    XNode.tag, List.find?, rateElem, audioTrackElem, audioClipElem,
    List.length_zip]

/-- C6: the declared sequence duration is the audio-derived frame count
`round(audio_duration * 30)` (not the sum of panel durations), and the audio
media holds exactly two tracks, each with one clipitem spanning frame 0 to
that same frame count and referencing the audio file by name. -/
theorem C6_audio_tracks (imgs : List String) (ts : List ClipTiming)
    (af : String) (ad : ℚ) :
    seqDurationText (create_premiere_xml imgs ts af ad)
      = some (toString (seconds_to_frames ad)) ∧
    ((((create_premiere_xml imgs ts af ad).child "sequence").bind
        (·.child "media")).bind (·.child "audio")).map XNode.children
      = some [audioTrackElem af ad 1, audioTrackElem af ad 2] ∧
    (∀ ch : ℕ,
      (audioTrackElem af ad ch).children = [audioClipElem af ad ch] ∧
      ((audioClipElem af ad ch).child "start").bind XNode.text = some "0" ∧
      ((audioClipElem af ad ch).child "end").bind XNode.text
        = some (toString (seconds_to_frames ad)) ∧
      (((audioClipElem af ad ch).child "file").bind (·.child "name")).bind
        XNode.text = some af ∧
      (((audioClipElem af ad ch).child "file").bind (·.child "pathurl")).bind
        XNode.text = some af) := by
  refine ⟨?_, ?_, fun ch => ⟨rfl, rfl, rfl, rfl, rfl⟩⟩
  · rfl
  · rfl

/-- C10: every video clipitem's declared duration element is its out-point
plus exactly 1000 frames (the `# Buffer` line), so it never equals the
clip's actual span, while each audio clipitem's duration element equals its
out-point exactly; the video track consists exactly of these clipitems. -/
theorem C10_duration_buffer (i : ℕ) (img : String) (t : ClipTiming)
    (af : String) (ad : ℚ) (ch : ℕ) (imgs : List String)
    (ts : List ClipTiming) :
    ((videoClipElem i img t).child "duration").bind XNode.text
      = some (toString (seconds_to_frames t.getDuration + 1000)) ∧
    ((videoClipElem i img t).child "out").bind XNode.text
      = some (toString (seconds_to_frames t.getDuration)) ∧
    seconds_to_frames t.getDuration + 1000 ≠ seconds_to_frames t.getDuration ∧
    ((audioClipElem af ad ch).child "duration").bind XNode.text
      = some (toString (seconds_to_frames ad)) ∧
    ((audioClipElem af ad ch).child "out").bind XNode.text
      = some (toString (seconds_to_frames ad)) ∧
    (videoTrackOf (create_premiere_xml imgs ts af ad)).map XNode.children
      = some (((imgs.zip ts).enum).map fun p =>
          videoClipElem p.1 p.2.1 p.2.2) := by
  refine ⟨rfl, rfl, by omega, rfl, rfl, ?_⟩
  simp [videoTrackOf, create_premiere_xml, XNode.child, XNode.children,
    XNode.tag, List.find?, rateElem, audioTrackElem, audioClipElem]

/-- C9: on every input the serializer's output token stream is tag-balanced
(well-formed), whichever upstream path produced the timings, and each image
filename appears escaped as the text content of the clip's name and pathurl
elements, with entity decoding recovering the original filename. -/
theorem C9_wellformed_escaping (imgs : List String) (ts : List ClipTiming)
    (af : String) (ad : ℚ) :
    wellFormed (renderToks (create_premiere_xml imgs ts af ad)) = true ∧
    (∀ s : String, unescapeXml (escapeXml s) = s) ∧
    (∀ (i : ℕ) (img : String) (t : ClipTiming),
      ((videoClipElem i img t).child "name").map renderToks
        = some [Tok.openT "name" [], Tok.textT (escapeXml img),
            Tok.closeT "name"] ∧
      (((videoClipElem i img t).child "file").bind
          (·.child "pathurl")).map renderToks
        = some [Tok.openT "pathurl" [], Tok.textT (escapeXml img),
            Tok.closeT "pathurl"]) := by
  refine ⟨wellFormed_create imgs ts af ad, unescape_escape,
    fun i img t => ⟨?_, ?_⟩⟩
  · simp [videoClipElem, XNode.child, XNode.children, XNode.tag,
      List.find?, rateElem, renderToks, renderChildren]
  · simp [videoClipElem, XNode.child, XNode.children, XNode.tag,
      List.find?, rateElem, renderToks, renderChildren]

/-- C5 counterexample: at seconds = 3/4 (exactly representable, so the
Python float computation agrees with the rational model) the product with
30 is the exact tie 22.5; Python `round` gives 22 (ties to even) while the
claimed round-half-up gives 23. -/
theorem C5_counterexample :
    seconds_to_frames (3/4) = 22 ∧
    roundHalfUpSpec ((3/4) * 30) = 23 ∧
    seconds_to_frames (3/4) ≠ roundHalfUpSpec ((3/4) * 30) := by
  have h30 : ((3 : ℚ)/4) * 30 = 45/2 := by norm_num
  have hf : ((45 : ℚ)/2).floor = 22 := by
    rw [rat_floor_eq_floor, Int.floor_eq_iff]
    constructor <;> norm_num
  have h22 : seconds_to_frames (3/4) = 22 := by
    rw [seconds_to_frames, h30, pyRound, hf]
    norm_num
  have h23 : roundHalfUpSpec ((3/4) * 30) = 23 := by
    rw [roundHalfUpSpec, h30, show (45 : ℚ)/2 + 1/2 = 23 by norm_num,
      rat_floor_eq_floor]
    exact_mod_cast Int.floor_intCast 23
  exact ⟨h22, h23, by rw [h22, h23]; omega⟩

/-- C5 amended: every time value is converted via
`frames = round(seconds * 30)` where `round` is Python's banker's rounding:
an exact half rounds to the even neighbour (22.5 → 22), not always upward;
the same conversion feeds every time text in the document. -/
theorem C5_banker_rounding :
    (∀ s : ℚ, seconds_to_frames s = pyRound (s * 30)) ∧
    (∀ n : ℤ, pyRound ((n : ℚ) + 1/2) = if n % 2 = 0 then n else n + 1) ∧
    (∀ (imgs : List String) (ts : List ClipTiming) (af : String) (ad : ℚ)
        (i : ℕ) (img : String) (t : ClipTiming) (ch : ℕ),
      seqDurationText (create_premiere_xml imgs ts af ad)
        = some (toString (seconds_to_frames ad)) ∧
      ((videoClipElem i img t).child "start").bind XNode.text
        = some (toString (seconds_to_frames t.getStart)) ∧
      ((videoClipElem i img t).child "out").bind XNode.text
        = some (toString (seconds_to_frames t.getDuration)) ∧
      ((audioClipElem af ad ch).child "out").bind XNode.text
        = some (toString (seconds_to_frames ad))) := by
  refine ⟨fun s => rfl, ?_,
    fun imgs ts af ad i img t ch => ⟨rfl, rfl, rfl, rfl⟩⟩
  intro n
  have hfloor : ((n : ℚ) + 1/2).floor = n := by
    rw [rat_floor_eq_floor, add_comm, Int.floor_add_int]
    norm_num [Int.floor_eq_iff]
  rw [pyRound, hfloor]
  have hhalf : (n : ℚ) + 1/2 - n = 1/2 := by ring
  rw [hhalf]
  norm_num

/-- C7 counterexample: N = 2 panels, D = 1/10 s.  Fallback gives each panel
1/20 s = 1.5 frames; both clip spans round to 2 frames (ties to even), so
the last clip's declared end frame is 4, while the sequence's declared
total is round(3.0) = 3 frames: the last clip end exceeds the sequence
duration.  (1/10 is shorthand: in the float code the same inputs produce
1.5-frame products that round identically.) -/
theorem C7_counterexample :
    generate_fallback_timings 2 (1/10)
      = .ok [{ panel := 1, start_time := 0, duration := 1/20 },
             { panel := 2, start_time := 1/20, duration := 1/20 }] ∧
    ([{ panel := 1, start_time := 0, duration := 1/20 },
      { panel := 2, start_time := 1/20, duration := 1/20 }].map Timing.toClip)
      = [{ start_time := some 0, duration := some (1/20) },
         { start_time := some (1/20), duration := some (1/20) }] ∧
    ((videoTrackOf (create_premiere_xml ["a.png", "b.png"]
        [{ start_time := some 0, duration := some (1/20) },
         { start_time := some (1/20), duration := some (1/20) }]
        "audio.mp3" (1/10))).bind (fun tr => tr.children.getLast?)).bind
      (fun c => (c.child "end").bind XNode.text) = some "4" ∧
    seqDurationText (create_premiere_xml ["a.png", "b.png"]
        [{ start_time := some 0, duration := some (1/20) },
         { start_time := some (1/20), duration := some (1/20) }]
        "audio.mp3" (1/10)) = some "3" ∧
    ¬((4 : ℤ) ≤ 3) := by
  have hf32 : ((3 : ℚ)/2).floor = 1 := by
    rw [rat_floor_eq_floor, Int.floor_eq_iff]
    constructor <;> norm_num
  have hf3 : ((3 : ℚ)).floor = 3 := by
    rw [rat_floor_eq_floor]
    exact_mod_cast Int.floor_intCast 3
  have h2 : seconds_to_frames ((20 : ℚ)⁻¹) = 2 := by
    rw [seconds_to_frames, show ((20 : ℚ)⁻¹) * 30 = 3/2 by norm_num,
      pyRound, hf32]
    norm_num
  have h3 : seconds_to_frames ((10 : ℚ)⁻¹) = 3 := by
    rw [seconds_to_frames, show ((10 : ℚ)⁻¹) * 30 = 3 by norm_num,
      pyRound, hf3]
    norm_num
  have h4 : toString ((4 : ℤ)) = "4" := rfl
  have h5 : toString ((3 : ℤ)) = "3" := rfl
  refine ⟨?_, rfl, ?_, ?_⟩
  · rw [generate_fallback_timings, if_neg (by norm_num), if_neg (by norm_num)]
    rw [show (2 : ℤ).toNat = 2 from rfl]
    norm_num [List.range_succ, Timing.mk.injEq]
  · simp [videoTrackOf, create_premiere_xml, XNode.child, XNode.children,
      XNode.tag, XNode.text, List.find?, rateElem, audioTrackElem,
      audioClipElem, videoClipElem, ClipTiming.getStart,
      ClipTiming.getDuration, h2, h4, List.getLast?, List.enum,
      List.enumFrom, List.zip, List.zipWith]
  · constructor
    · simp [seqDurationText, create_premiere_xml, XNode.child,
        XNode.children, XNode.tag, XNode.text, List.find?, rateElem, h3, h5]
    · omega

/-- C7 amended: with fallback timings for D = audio duration, the last
video clip's declared end frame can exceed the sequence's declared frame
count by at most one frame (and can exceed it, as the counterexample
shows): last clip end ≤ sequence frames + 1. -/
theorem C7_last_clip_end (N : ℤ) (D : ℚ) (hN : 1 ≤ N) (hD : 0 < D)
    (l : List Timing) (hl : generate_fallback_timings N D = .ok l)
    (hne : l ≠ []) :
    clipEndFrames (Timing.toClip (l.getLast hne))
      ≤ seconds_to_frames D + 1 ∧
    (∀ (i : ℕ) (img : String) (t : ClipTiming),
      ((videoClipElem i img t).child "end").bind XNode.text
        = some (toString (clipEndFrames t))) ∧
    (∀ (imgs : List String) (ts : List ClipTiming) (af : String),
      seqDurationText (create_premiere_xml imgs ts af D)
        = some (toString (seconds_to_frames D))) := by
  refine ⟨?_, fun i img t => rfl, fun imgs ts af => rfl⟩
  rw [generate_fallback_timings, if_neg (not_lt.mpr hN),
    if_neg (not_le.mpr hD)] at hl
  injection hl with hl
  subst hl
  have hnpos : 1 ≤ N.toNat := by omega
  have hNq : (N : ℚ) ≠ 0 := Int.cast_ne_zero.mpr (by omega)
  rw [List.getLast_eq_getElem]
  simp only [List.length_map, List.length_range, List.getElem_map,
    List.getElem_range]
  simp only [Timing.toClip, clipEndFrames, ClipTiming.getStart,
    ClipTiming.getDuration, Option.getD_some, seconds_to_frames]
  have key := pyRound_add_le (((N.toNat - 1 : ℕ) : ℚ) * (D / (N : ℚ)) * 30)
    ((D / (N : ℚ)) * 30)
  have hcast : ((N.toNat - 1 : ℕ) : ℚ) = (N : ℚ) - 1 := by
    rw [Nat.cast_sub hnpos, Nat.cast_one]
    congr 1
    rw [show ((N.toNat : ℕ) : ℚ) = ((N.toNat : ℤ) : ℚ) by push_cast; ring,
      Int.toNat_of_nonneg (by omega)]
  have hsum : ((N.toNat - 1 : ℕ) : ℚ) * (D / (N : ℚ)) * 30
      + (D / (N : ℚ)) * 30 = D * 30 := by
    rw [hcast]
    field_simp
    ring
  rw [hsum] at key
  exact key

/-- Witness for C7 amended at N = 1, D = 9. -/
theorem C7_witness :
    clipEndFrames (Timing.toClip
      (([{ panel := 1, start_time := 0, duration := 9 }] : List Timing).getLast
        (by simp))) ≤ seconds_to_frames 9 + 1 :=
  (C7_last_clip_end 1 9 (by decide) (by decide)
    [{ panel := 1, start_time := 0, duration := 9 }]
    (by simp [generate_fallback_timings,
      show ¬((9 : ℚ) ≤ 0) from by decide,
      show List.range 1 = [0] from rfl])
    (by simp)).1

end ComicToPremiere
